import Mathlib

/-!
Verification development for the stock-video search utility in `main.py`.

The program extracts keywords from a text script, fetches video metadata
from a paginated provider (or a mock generator when no credential is set),
scores the videos for relevance against the keywords, and sorts them.

Python semantics are shallowly embedded:
- Python `str.lower()` is `pyLower`, `str.split()` (no argument) is
  `py_split`, `str.isalnum()` is `py_isalnum`, the substring test
  `a in b` on strings is `substrB`.
- number arithmetic on relevance scores is modelled in `ℚ` (the program
  only ever multiplies integer counts by the literals 0.6 and 0.4);
- `random.randint` / `random.choice` consume values from an explicit
  stream `rnd : Nat → Nat`;
- the NLTK toolkit (sentence tokenizer, word tokenizer, stopword list,
  part-of-speech tagger) is an abstract structure `NLP`; `pos_tag` is
  modelled by its documented contract: it returns the input tokens in
  order, each paired with a tag that may depend on the whole token list
  and the position.
-/

namespace StockVideo

/-- Model of Python `str.lower()` (character-wise case folding). -/
def pyLower (s : String) : String := String.mk (s.toList.map Char.toLower)

/-- Helper for `py_split`: scan the characters, accumulating the current
word reversed, emitting a word at each whitespace run boundary. -/
def splitWsAux : List Char → List Char → List String
  | [], cur => if cur.isEmpty then [] else [String.mk cur.reverse]
  | c :: cs, cur =>
    if c.isWhitespace then
      if cur.isEmpty then splitWsAux cs []
      else String.mk cur.reverse :: splitWsAux cs []
    else splitWsAux cs (c :: cur)

/-- Model of Python `str.split()` with no arguments: split on whitespace
runs and drop empty pieces. -/
def py_split (s : String) : List String := splitWsAux s.toList []

/-- Model of Python `str.isalnum()`: nonempty and every character
alphanumeric. -/
def py_isalnum (s : String) : Bool :=
  !s.toList.isEmpty && s.toList.all (fun c => c.isAlphanum)

/-- Model of Python `str.startswith(pre)`. -/
def py_startswith (s pre : String) : Bool := pre.toList.isPrefixOf s.toList

/-- Substring test on character lists: `q` occurs contiguously in `w`.
This models Python `q in w` for strings. -/
def substrL (q : List Char) : List Char → Bool
  | [] => q.isEmpty
  | c :: cs => q.isPrefixOf (c :: cs) || substrL q cs

/-- Model of the Python string containment test `q in w`. -/
def substrB (q w : String) : Bool := substrL q.toList w.toList

/-- Model of Python `str.strip()` (whitespace strip). -/
def py_strip (s : String) : String := s.trim

/-- The video record shape used throughout the pipeline: `id`, `duration`
(seconds), `width`, `height`, plus the `title`/`description` strings the
adapter attaches. -/
structure Video where
  id : Nat
  duration : Nat
  width : Nat
  height : Nat
  title : String
  description : String
deriving DecidableEq, Repr

/-- Embedding of `mock_fetch_videos` from `main.py`.  Ambient randomness
(`random.randint(5, 60)`, `random.choice([1280, 1920, 3840])`,
`random.choice([720, 1080, 2160])`) is modelled by an explicit stream
`rnd`: record `i` consumes stream positions `3*i`, `3*i+1`, `3*i+2`.
`randint(5,60)` is the 56-value range `5 + n % 56`; `choice` of a
3-element list indexes with `n % 3`.  As in the source, the `page`
argument is ignored and ids are `0, …, per_page - 1`. -/
def mock_fetch_videos (rnd : Nat → Nat) (query : String) (per_page : Nat)
    (_page : Nat) : List Video :=
  (List.range per_page).map (fun i =>
    { id := i
      duration := 5 + rnd (3 * i) % 56
      width := ([1280, 1920, 3840] : List Nat).getD (rnd (3 * i + 1) % 3) 1280
      height := ([720, 1080, 2160] : List Nat).getD (rnd (3 * i + 2) % 3) 720
      title := "Mock Video " ++ toString i ++ " about " ++ query
      description :=
        "This is a mock video description for " ++ query ++
          " content. Video number " ++ toString i ++ "." })

/-- Embedding of `calculate_relevance` from `main.py`: count the
whitespace-delimited words of the title (resp. description) whose
lowercase form contains the lowercase query as a substring, and combine
the counts with weights 0.6 and 0.4. -/
def calculate_relevance (video : Video) (query : String) : ℚ :=
  let title_relevance : Nat :=
    ((py_split video.title).filter
      (fun w => substrB (pyLower query) (pyLower w))).length
  let description_relevance : Nat :=
    ((py_split video.description).filter
      (fun w => substrB (pyLower query) (pyLower w))).length
  (title_relevance : ℚ) * (6 / 10) + (description_relevance : ℚ) * (4 / 10)

/-- Embedding of `sort_videos` from `main.py`.  Python `sorted` is a
stable sort; each branch is a stable merge sort under the comparison the
`key`/`reverse` combination induces (`reverse=True` compares in the
opposite direction but still keeps equal elements in input order). -/
def sort_videos (videos : List Video) (sort_by : String) (query : String) :
    List Video :=
  if sort_by = "duration" then
    videos.mergeSort (fun a b => decide (a.duration ≤ b.duration))
  else if sort_by = "width" then
    videos.mergeSort (fun a b => decide (b.width ≤ a.width))
  else if sort_by = "height" then
    videos.mergeSort (fun a b => decide (b.height ≤ a.height))
  else if sort_by = "relevance" then
    videos.mergeSort
      (fun a b => decide (calculate_relevance b query ≤ calculate_relevance a query))
  else
    videos.mergeSort
      (fun a b => decide (calculate_relevance b query ≤ calculate_relevance a query))

/-- Abstract model of the NLTK resources `extract_keywords` uses.
`sent_tokenize` and `word_tokenize` are arbitrary tokenizers,
`stop_words` is the English stopword list, and `tagAt tokens i` is the
part-of-speech tag `pos_tag tokens` assigns to position `i` (the tag may
depend on the whole token list, as in NLTK). -/
structure NLP where
  sent_tokenize : String → List String
  word_tokenize : String → List String
  stop_words : List String
  tagAt : List String → Nat → String

/-- Model of NLTK `pos_tag`: the input tokens in order, each paired with
its tag. -/
def posTag (nlp : NLP) (tokens : List String) : List (String × String) :=
  (List.range tokens.length).map (fun i => (tokens.getD i "", nlp.tagAt tokens i))

/-- The per-sentence token filter of `extract_keywords`: tokenize the
lowercased sentence and keep alphanumeric non-stopword tokens. -/
def filteredTokens (nlp : NLP) (sentence : String) : List String :=
  (nlp.word_tokenize (pyLower sentence)).filter
    (fun w => py_isalnum w && !(nlp.stop_words.contains w))

/-- The keywords `extract_keywords` collects from one sentence: tokens
whose part-of-speech tag begins with "NN" or "VB". -/
def sentence_keywords (nlp : NLP) (sentence : String) : List String :=
  ((posTag nlp (filteredTokens nlp sentence)).filter
    (fun p => py_startswith p.2 "NN" || py_startswith p.2 "VB")).map Prod.fst

/-- Embedding of `extract_keywords` from `main.py`: process each sentence
independently, concatenate, and deduplicate (`list(set(...))`; the order
of the result is unspecified in Python, `dedup` realizes one order). -/
def extract_keywords (nlp : NLP) (text : String) : List String :=
  ((nlp.sent_tokenize text).flatMap (fun s => sentence_keywords nlp s)).dedup

/-- Minimal JSON value model for the provider's parsed response body. -/
inductive JVal where
  | jnull : JVal
  | jbool : Bool → JVal
  | jnum : Int → JVal
  | jstr : String → JVal
  | jarr : List JVal → JVal
  | jobj : List (String × JVal) → JVal

/-- The Python exceptions `fetch_videos` / `validate_api_response` can
raise on a parsed body: `valueError` (raised by the validator, caught),
`typeError` (raised by `in` / item access on a non-container, uncaught),
`attributeError` (raised by `.get` on a non-dict, uncaught). -/
inductive PyErr where
  | valueError : PyErr
  | typeError : PyErr
  | attributeError : PyErr
deriving DecidableEq, Repr

/-- Model of the Python membership test `k in v` on a parsed JSON value:
key lookup on a dict, element equality on a list, substring test on a
string, and `TypeError` on a non-container. -/
def pyIn (k : String) : JVal → Except PyErr Bool
  | .jobj fields => .ok (fields.any (fun p => p.1 == k))
  | .jarr elts =>
      .ok (elts.any (fun e => match e with | .jstr s => s == k | _ => false))
  | .jstr s => .ok (substrB k s)
  | .jnum _ => .error .typeError
  | .jbool _ => .error .typeError
  | .jnull => .error .typeError

/-- Model of Python subscripting `v[k]` with a string key: dict lookup
(`TypeError` on a list or string index by string, `TypeError` on
non-containers; a missing dict key would be a `KeyError`, folded into
`typeError` here — it is unreachable after a successful `k in v`). -/
def pyIndex (k : String) : JVal → Except PyErr JVal
  | .jobj fields =>
      match fields.find? (fun p => p.1 == k) with
      | some p => .ok p.2
      | none => .error .typeError
  | _ => .error .typeError

/-- Model of Python `v.get(k, dflt)`: only dicts have `.get`
(`AttributeError` otherwise). -/
def pyGet (v : JVal) (k : String) (dflt : JVal) : Except PyErr JVal :=
  match v with
  | .jobj fields =>
      .ok (((fields.find? (fun p => p.1 == k)).map Prod.snd).getD dflt)
  | _ => .error .attributeError

/-- Model of Python dict item assignment `v[k] = x`: replace an existing
key in place or append a new one; `TypeError` on a non-dict. -/
def pySet (v : JVal) (k : String) (x : JVal) : Except PyErr JVal :=
  match v with
  | .jobj fields =>
      if fields.any (fun p => p.1 == k) then
        .ok (.jobj (fields.map (fun p => if p.1 == k then (p.1, x) else p)))
      else
        .ok (.jobj (fields ++ [(k, x)]))
  | _ => .error .typeError

/-- Model of Python `all(key in video for key in keys)`: short-circuit
conjunction, propagating any exception the membership tests raise. -/
def allKeysIn : List String → JVal → Except PyErr Bool
  | [], _ => .ok true
  | k :: ks, v => do
      let b ← pyIn k v
      if b then allKeysIn ks v else .ok false

/-- Embedding of the element loop of `validate_api_response`. -/
def validateElems : List JVal → Except PyErr Unit
  | [] => .ok ()
  | e :: es => do
      let ok1 ← allKeysIn ["id", "duration", "width", "height"] e
      if ok1 then validateElems es else .error .valueError

/-- Embedding of `validate_api_response` from `main.py`: require a
"videos" member that is a list whose every element carries the keys
`id`, `duration`, `width`, `height`; raise `ValueError` otherwise. -/
def validate_api_response (r : JVal) : Except PyErr Unit := do
  let hv ← pyIn "videos" r
  if !hv then .error .valueError
  else
    let v ← pyIndex "videos" r
    match v with
    | .jarr elts => validateElems elts
    | _ => .error .valueError

/-- Embedding of the per-video enrichment in `fetch_videos`:
`video['title'] = video.get('user', {}).get('name', '')` and
`video['description'] = video.get('url', '')`. -/
def enrichVideo (v : JVal) : Except PyErr JVal := do
  let user ← pyGet v "user" (.jobj [])
  let name ← pyGet user "name" (.jstr "")
  let v1 ← pySet v "title" name
  let url ← pyGet v1 "url" (.jstr "")
  pySet v1 "description" url

/-- Outcome of the HTTP call in `fetch_videos`: a transport failure
(connection error, timeout, or non-2xx status via `raise_for_status`,
all `requests.exceptions.RequestException`), a body that is not valid
JSON (`.json()` raises a `ValueError` subclass), or a parsed JSON
body. -/
inductive FetchOutcome where
  | transportError : FetchOutcome
  | jsonDecodeError : FetchOutcome
  | ok : JVal → FetchOutcome

/-- The empty-result response `{"videos": []}`. -/
def emptyVideos : JVal := .jobj [("videos", .jarr [])]

/-- Embedding of `fetch_videos` from `main.py`, parameterized by the
outcome of the HTTP request.  `RequestException` and `ValueError` are
caught and converted to `{"videos": []}`; any other exception raised
inside the `try` block (`TypeError`, `AttributeError`) propagates to the
caller, which the `Except` error channel records. -/
def fetch_videos (outcome : FetchOutcome) : Except PyErr JVal :=
  match outcome with
  | .transportError => .ok emptyVideos
  | .jsonDecodeError => .ok emptyVideos
  | .ok body =>
      match (do
        validate_api_response body
        let vj ← pyIndex "videos" body
        match vj with
        | .jarr elts => do
            let elts' ← elts.mapM enrichVideo
            pySet body "videos" (.jarr elts')
        | _ => .error .valueError : Except PyErr JVal) with
      | .ok data => .ok data
      | .error .valueError => .ok emptyVideos
      | .error e => .error e

/-- One request the orchestrator issues to its fetch function, together
with the number of videos already collected at the moment of the call. -/
structure FetchCall where
  collectedBefore : Nat
  keyword : String
  perPage : Nat
  page : Nat
deriving DecidableEq, Repr

/-- A fetch function as the orchestrator sees it.  The first argument is
the index of the call (stateful behaviour — the ambient random generator
in mock mode, the remote server in real mode — may answer each call
differently); then the query, `per_page`, and `page`. -/
def FetchFun : Type := Nat → String → Nat → Nat → List Video

/-- Embedding of the inner `while` loop of `fetch_and_sort_videos`: while
fewer than `max_results` videos are collected, request
`min(max_results - collected, 15)` videos for `keyword` at the current
page, stop on an empty page, otherwise append and advance the page.
Returns the collected videos, the trace of calls made, and the next call
index. -/
def fetchLoopFuel (fetch : FetchFun) (max_results : Nat) (keyword : String) :
    Nat → Nat → Nat → List Video → List FetchCall →
    List Video × List FetchCall × Nat
  | 0, idx, _page, acc, tr => (acc, tr, idx)
  | fuel + 1, idx, page, acc, tr =>
    if acc.length < max_results then
      if fetch idx keyword (min (max_results - acc.length) 15) page = [] then
        (acc, tr ++ [⟨acc.length, keyword, min (max_results - acc.length) 15, page⟩],
          idx + 1)
      else
        fetchLoopFuel fetch max_results keyword fuel (idx + 1) (page + 1)
          (acc ++ fetch idx keyword (min (max_results - acc.length) 15) page)
          (tr ++ [⟨acc.length, keyword, min (max_results - acc.length) 15, page⟩])
    else (acc, tr, idx)

/-- The inner `while` loop, entered with fuel equal to its own
termination measure `max_results - acc.length`.  Each iteration that
continues appends at least one video, so the measure drops by at least
one per iteration; `fetchLoopFuel` reaches fuel 0 only in states where
the `while` guard is false and returns exactly what the guard-false exit
returns, so the fuel never truncates the loop (`fetchLoop_exact` below
makes this precise). -/
def fetchLoop (fetch : FetchFun) (max_results : Nat) (keyword : String)
    (idx page : Nat) (acc : List Video) (tr : List FetchCall) :
    List Video × List FetchCall × Nat :=
  fetchLoopFuel fetch max_results keyword (max_results - acc.length) idx page acc tr

/-- Embedding of the `for keyword in keywords` loop of
`fetch_and_sort_videos`: run the pagination loop for each keyword,
breaking out as soon as `max_results` videos are collected. -/
def keywordLoop (fetch : FetchFun) (max_results : Nat) :
    List String → Nat → List Video → List FetchCall →
    List Video × List FetchCall × Nat
  | [], idx, acc, tr => (acc, tr, idx)
  | k :: ks, idx, acc, tr =>
    let r := fetchLoop fetch max_results k idx 1 acc tr
    if max_results ≤ r.1.length then r
    else keywordLoop fetch max_results ks r.2.2 r.1 r.2.1

/-- Embedding of the `for sentence in sentences` loop of
`fetch_and_sort_videos`: extract the sentence's keywords, accumulate them,
run the keyword loop, and break as soon as `max_results` videos are
collected.  Also returns the accumulated keyword list (`all_keywords`). -/
def sentenceLoop (nlp : NLP) (fetch : FetchFun) (max_results : Nat) :
    List String → Nat → List String → List Video → List FetchCall →
    List String × List Video × List FetchCall × Nat
  | [], idx, kws, acc, tr => (kws, acc, tr, idx)
  | s :: ss, idx, kws, acc, tr =>
    let r := keywordLoop fetch max_results (extract_keywords nlp s) idx acc tr
    if max_results ≤ r.1.length then (kws ++ extract_keywords nlp s, r.1, r.2.1, r.2.2)
    else
      sentenceLoop nlp fetch max_results ss r.2.2
        (kws ++ extract_keywords nlp s) r.1 r.2.1

/-- Condition under which the orchestrator picks the mock fetch function:
`not API_KEY or API_KEY.strip() == ""` — the credential is unset, empty,
or whitespace-only. -/
def use_mock (api_key : Option String) : Bool :=
  match api_key with
  | none => true
  | some k => k = "" || py_strip k = ""

/-- The environment `fetch_and_sort_videos` runs in: the credential, the
NLTK resources, the real fetch function (whose per-call behaviour is
determined by the remote server), and the per-call random streams the
mock fetch consumes. -/
structure Config where
  api_key : Option String
  nlp : NLP
  fetchReal : FetchFun
  rnd : Nat → Nat → Nat

/-- The fetch function `fetch_and_sort_videos` selects:
`mock_fetch_videos` when the credential is absent or blank, the real
adapter otherwise. -/
def selectFetch (cfg : Config) : FetchFun :=
  if use_mock cfg.api_key then
    fun i q pp pg => mock_fetch_videos (cfg.rnd i) q pp pg
  else cfg.fetchReal

/-- Embedding of `fetch_and_sort_videos` from `main.py`, instrumented to
also return the trace of fetch calls: split the script into sentences,
run the nested accumulation loops, deduplicate the collected keywords,
and sort the collected videos with the space-joined keywords as query. -/
def fetch_and_sort_full (cfg : Config) (script sort_by : String)
    (max_results : Nat) : List Video × List FetchCall :=
  let r := sentenceLoop cfg.nlp (selectFetch cfg) max_results
    (cfg.nlp.sent_tokenize script) 0 [] [] []
  (sort_videos r.2.1 sort_by (String.intercalate " " r.1.dedup), r.2.2.1)

/-- The value `fetch_and_sort_videos` returns. -/
def fetch_and_sort_videos (cfg : Config) (script sort_by : String)
    (max_results : Nat) : List Video :=
  (fetch_and_sort_full cfg script sort_by max_results).1

/-- The comparison `sort_videos` sorts by, as a function of the sort key
(the relevance comparison is also the fallback for unknown keys). -/
def sortRel (sort_by query : String) (a b : Video) : Bool :=
  if sort_by = "duration" then decide (a.duration ≤ b.duration)
  else if sort_by = "width" then decide (b.width ≤ a.width)
  else if sort_by = "height" then decide (b.height ≤ a.height)
  else decide (calculate_relevance b query ≤ calculate_relevance a query)

/-- The spec's `titleMatchCount`: the number of whitespace-delimited
words of the title whose lowercase form contains the lowercase query as
a substring. -/
def titleMatchCount (v : Video) (q : String) : Nat :=
  ((py_split v.title).filter (fun w => substrB (pyLower q) (pyLower w))).length

/-- The spec's `descriptionMatchCount`, the same count over the
description. -/
def descriptionMatchCount (v : Video) (q : String) : Nat :=
  ((py_split v.description).filter (fun w => substrB (pyLower q) (pyLower w))).length

theorem sort_videos_eq_mergeSort (vs : List Video) (s q : String) :
    sort_videos vs s q = vs.mergeSort (sortRel s q) := by
  unfold sort_videos sortRel
  split_ifs <;> rfl

theorem sortRel_trans (s q : String) :
    ∀ a b c : Video, sortRel s q a b → sortRel s q b c → sortRel s q a c := by
  intro a b c
  unfold sortRel
  split_ifs <;> simp only [decide_eq_true_eq] <;> intro h1 h2 <;>
    first
      | exact Nat.le_trans h1 h2
      | exact Nat.le_trans h2 h1
      | exact le_trans h2 h1

theorem sortRel_total (s q : String) :
    ∀ a b : Video, sortRel s q a b || sortRel s q b a := by
  intro a b
  unfold sortRel
  split_ifs <;> simp only [Bool.or_eq_true, decide_eq_true_eq] <;>
    first
      | exact Nat.le_total _ _
      | exact le_total _ _

theorem sort_videos_pairwise (vs : List Video) (s q : String) :
    (sort_videos vs s q).Pairwise (fun a b => sortRel s q a b = true) := by
  rw [sort_videos_eq_mergeSort]
  exact List.sorted_mergeSort (sortRel_trans s q) (sortRel_total s q) vs

/-- Stability of a stable merge sort, phrased through `filter`: the
subsequence of records the predicate `p` selects is unchanged whenever
any two `p`-records compare `le` (e.g. when `p` fixes the sort key). -/
theorem filter_mergeSort_eq (le : Video → Video → Bool)
    (htrans : ∀ a b c : Video, le a b → le b c → le a c)
    (htotal : ∀ a b : Video, le a b || le b a)
    (p : Video → Bool) (hp : ∀ a b : Video, p a = true → p b = true → le a b = true)
    (vs : List Video) : (vs.mergeSort le).filter p = vs.filter p := by
  have hpw : (vs.filter p).Pairwise (fun a b => le a b = true) := by
    apply List.pairwise_of_forall_mem_list
    intro a ha b hb
    exact hp a b (List.of_mem_filter ha) (List.of_mem_filter hb)
  have h1 : List.Sublist (vs.filter p) (vs.mergeSort le) :=
    List.sublist_mergeSort htrans htotal hpw (List.filter_sublist vs)
  have h2 : List.Sublist (vs.filter p) ((vs.mergeSort le).filter p) := by
    have := h1.filter p
    rwa [List.filter_filter, show (fun a => p a && p a) = p from by
      funext a; exact Bool.and_self (p a)] at this
  have hlen : ((vs.mergeSort le).filter p).length = (vs.filter p).length :=
    ((List.mergeSort_perm vs le).filter p).length_eq
  exact (h2.eq_of_length hlen.symm).symm

/-- C1: `calculate_relevance` returns exactly
`0.6 * titleMatchCount + 0.4 * descriptionMatchCount` where the counts
are over whitespace-delimited words whose lowercase form contains the
lowercase query as a substring; hence every score is `0.6a + 0.4b` for
naturals `a`, `b`, and a video whose every title word matches while no
description word does scores `0.6 *` the number of title words. -/
theorem calculate_relevance_spec (v : Video) (q : String) :
    calculate_relevance v q =
        (6 / 10 : ℚ) * titleMatchCount v q + (4 / 10 : ℚ) * descriptionMatchCount v q ∧
    (∃ a b : ℕ, calculate_relevance v q = (6 / 10 : ℚ) * a + (4 / 10 : ℚ) * b) ∧
    ((∀ w ∈ py_split v.title, substrB (pyLower q) (pyLower w) = true) →
     (∀ w ∈ py_split v.description, substrB (pyLower q) (pyLower w) = false) →
     calculate_relevance v q = (6 / 10 : ℚ) * (py_split v.title).length) := by
  have hform : calculate_relevance v q =
      (6 / 10 : ℚ) * titleMatchCount v q + (4 / 10 : ℚ) * descriptionMatchCount v q := by
    unfold calculate_relevance titleMatchCount descriptionMatchCount
    ring
  refine ⟨hform, ⟨titleMatchCount v q, descriptionMatchCount v q, hform⟩, ?_⟩
  intro h1 h2
  have ht : (py_split v.title).filter (fun w => substrB (pyLower q) (pyLower w)) =
      py_split v.title := List.filter_eq_self.mpr h1
  have hd : (py_split v.description).filter (fun w => substrB (pyLower q) (pyLower w)) =
      [] := by
    apply List.filter_eq_nil_iff.mpr
    intro w hw
    simp [h2 w hw]
  unfold calculate_relevance
  rw [ht, hd]
  simp
  ring

/-- Concrete video used to witness C1. -/
def wVid : Video :=
  { id := 0, duration := 5, width := 1, height := 1
    title := "cats catsy", description := "dog dogs" }

/-- Witness for C1 at a concrete video and query: both title words
contain "cats", no description word does, so the score is 0.6 times the
two title words. -/
theorem calculate_relevance_spec_witness :
    calculate_relevance wVid "cats" = (6 / 10 : ℚ) * (py_split wVid.title).length :=
  (calculate_relevance_spec wVid "cats").2.2 (by decide) (by decide)

/-- C4: `sort_videos` is non-decreasing in duration for key "duration",
non-increasing in width for "width", non-increasing in height for
"height", and in each case the records holding any fixed key value keep
their original relative order (stability, phrased via `filter`). -/
theorem sort_videos_sorted_stable (vs : List Video) (q : String) :
    ((sort_videos vs "duration" q).Pairwise (fun a b => a.duration ≤ b.duration)) ∧
    ((sort_videos vs "width" q).Pairwise (fun a b => b.width ≤ a.width)) ∧
    ((sort_videos vs "height" q).Pairwise (fun a b => b.height ≤ a.height)) ∧
    (∀ d : Nat, (sort_videos vs "duration" q).filter (fun x => x.duration == d) =
      vs.filter (fun x => x.duration == d)) ∧
    (∀ d : Nat, (sort_videos vs "width" q).filter (fun x => x.width == d) =
      vs.filter (fun x => x.width == d)) ∧
    (∀ d : Nat, (sort_videos vs "height" q).filter (fun x => x.height == d) =
      vs.filter (fun x => x.height == d)) := by
  refine ⟨?_, ?_, ?_, ?_, ?_, ?_⟩
  · exact (sort_videos_pairwise vs "duration" q).imp (fun h => by
      simpa [sortRel] using h)
  · exact (sort_videos_pairwise vs "width" q).imp (fun h => by
      simpa [sortRel] using h)
  · exact (sort_videos_pairwise vs "height" q).imp (fun h => by
      simpa [sortRel] using h)
  · intro d
    rw [sort_videos_eq_mergeSort]
    refine filter_mergeSort_eq _ (sortRel_trans "duration" q) (sortRel_total "duration" q)
      _ (fun a b ha hb => ?_) vs
    have ha' : a.duration = d := by simpa using ha
    have hb' : b.duration = d := by simpa using hb
    simp [sortRel, ha', hb']
  · intro d
    rw [sort_videos_eq_mergeSort]
    refine filter_mergeSort_eq _ (sortRel_trans "width" q) (sortRel_total "width" q)
      _ (fun a b ha hb => ?_) vs
    have ha' : a.width = d := by simpa using ha
    have hb' : b.width = d := by simpa using hb
    simp [sortRel, ha', hb']
  · intro d
    rw [sort_videos_eq_mergeSort]
    refine filter_mergeSort_eq _ (sortRel_trans "height" q) (sortRel_total "height" q)
      _ (fun a b ha hb => ?_) vs
    have ha' : a.height = d := by simpa using ha
    have hb' : b.height = d := by simpa using hb
    simp [sortRel, ha', hb']

/-- C7: `sort_videos` with a sort key other than "duration", "width",
"height", "relevance" returns exactly what sorting by "relevance"
returns. -/
theorem sort_videos_unknown_key (vs : List Video) (s q : String)
    (h1 : s ≠ "duration") (h2 : s ≠ "width") (h3 : s ≠ "height")
    (h4 : s ≠ "relevance") :
    sort_videos vs s q = sort_videos vs "relevance" q := by
  simp [sort_videos, h1, h2, h3, h4]

/-- Concrete list of videos used to witness C7. -/
def wVids : List Video :=
  [wVid, { id := 1, duration := 9, width := 2, height := 3
           title := "a cats", description := "cats" }]

/-- Witness for C7: an unrecognized key "foo" sorts exactly like
"relevance" on a concrete list. -/
theorem sort_videos_unknown_key_witness :
    sort_videos wVids "foo" "cats" = sort_videos wVids "relevance" "cats" :=
  sort_videos_unknown_key wVids "foo" "cats" (by decide) (by decide) (by decide)
    (by decide)

/-- C10: for every sort key and query, the output of `sort_videos` is a
permutation of its input (the input itself is a value in this pure
embedding and is returned unchanged by construction). -/
theorem sort_videos_perm (vs : List Video) (s q : String) :
    List.Perm (sort_videos vs s q) vs := by
  unfold sort_videos
  split_ifs <;> exact List.mergeSort_perm vs _

theorem fetchLoopFuel_congr (fetch : FetchFun) (m : Nat) (k : String) :
    ∀ fuel fuel' idx page acc tr,
      m - acc.length ≤ fuel → m - acc.length ≤ fuel' →
      fetchLoopFuel fetch m k fuel idx page acc tr =
        fetchLoopFuel fetch m k fuel' idx page acc tr := by
  intro fuel
  induction fuel with
  | zero =>
    intro fuel' idx page acc tr h0 _
    have hge : m ≤ acc.length := by omega
    cases fuel' with
    | zero => rfl
    | succ fuel' =>
      simp only [fetchLoopFuel]
      rw [if_neg (by omega)]
  | succ fuel ih =>
    intro fuel' idx page acc tr hfuel hfuel'
    cases fuel' with
    | zero =>
      have hge : m ≤ acc.length := by omega
      simp only [fetchLoopFuel]
      rw [if_neg (by omega)]
    | succ fuel' =>
      simp only [fetchLoopFuel]
      by_cases hlt : acc.length < m
      · rw [if_pos hlt, if_pos hlt]
        by_cases hemp : fetch idx k (min (m - acc.length) 15) page = []
        · rw [if_pos hemp, if_pos hemp]
        · rw [if_neg hemp, if_neg hemp]
          have hgrow : acc.length + 1 ≤
              (acc ++ fetch idx k (min (m - acc.length) 15) page).length := by
            have : 0 < (fetch idx k (min (m - acc.length) 15) page).length :=
              List.length_pos.mpr hemp
            simp only [List.length_append]
            omega
          exact ih fuel' (idx + 1) (page + 1) _ _ (by omega) (by omega)
      · rw [if_neg hlt, if_neg hlt]

/-- The fuel supplied by `fetchLoop` is adequate: any larger fuel gives
the same result, so `fetchLoop` computes the unbounded `while` loop. -/
theorem fetchLoop_exact (fetch : FetchFun) (m : Nat) (k : String)
    (fuel idx page : Nat) (acc : List Video) (tr : List FetchCall)
    (h : m - acc.length ≤ fuel) :
    fetchLoopFuel fetch m k fuel idx page acc tr = fetchLoop fetch m k idx page acc tr :=
  fetchLoopFuel_congr fetch m k fuel (m - acc.length) idx page acc tr h (Nat.le_refl _)

theorem fetchLoopFuel_trace (fetch : FetchFun) (m : Nat) (k : String) :
    ∀ fuel idx page acc tr,
      (∀ c ∈ tr, c.perPage = min (m - c.collectedBefore) 15 ∧ c.collectedBefore < m) →
      ∀ c ∈ (fetchLoopFuel fetch m k fuel idx page acc tr).2.1,
        c.perPage = min (m - c.collectedBefore) 15 ∧ c.collectedBefore < m := by
  intro fuel
  induction fuel with
  | zero => intro idx page acc tr htr; simpa [fetchLoopFuel] using htr
  | succ fuel ih =>
    intro idx page acc tr htr
    have hstep : ∀ hlt : acc.length < m,
        ∀ c ∈ tr ++ [FetchCall.mk acc.length k (min (m - acc.length) 15) page],
          c.perPage = min (m - c.collectedBefore) 15 ∧ c.collectedBefore < m := by
      intro hlt c hc
      rcases List.mem_append.mp hc with h | h
      · exact htr c h
      · rcases List.mem_singleton.mp h with rfl
        exact ⟨rfl, hlt⟩
    simp only [fetchLoopFuel]
    split
    case isTrue hlt =>
      split
      case isTrue hemp => exact hstep hlt
      case isFalse hemp => exact ih _ _ _ _ (hstep hlt)
    case isFalse hlt => exact htr

theorem fetchLoop_trace (fetch : FetchFun) (m : Nat) (k : String)
    (idx page : Nat) (acc : List Video) (tr : List FetchCall)
    (htr : ∀ c ∈ tr, c.perPage = min (m - c.collectedBefore) 15 ∧ c.collectedBefore < m) :
    ∀ c ∈ (fetchLoop fetch m k idx page acc tr).2.1,
      c.perPage = min (m - c.collectedBefore) 15 ∧ c.collectedBefore < m :=
  fetchLoopFuel_trace fetch m k _ idx page acc tr htr

theorem keywordLoop_trace (fetch : FetchFun) (m : Nat) :
    ∀ (ks : List String) (idx : Nat) (acc : List Video) (tr : List FetchCall),
      (∀ c ∈ tr, c.perPage = min (m - c.collectedBefore) 15 ∧ c.collectedBefore < m) →
      ∀ c ∈ (keywordLoop fetch m ks idx acc tr).2.1,
        c.perPage = min (m - c.collectedBefore) 15 ∧ c.collectedBefore < m := by
  intro ks
  induction ks with
  | nil => intro idx acc tr htr; simpa [keywordLoop] using htr
  | cons k ks ih =>
    intro idx acc tr htr
    simp only [keywordLoop]
    split
    case isTrue => exact fetchLoop_trace fetch m k idx 1 acc tr htr
    case isFalse => exact ih _ _ _ (fetchLoop_trace fetch m k idx 1 acc tr htr)

theorem sentenceLoop_trace (nlp : NLP) (fetch : FetchFun) (m : Nat) :
    ∀ (ss : List String) (idx : Nat) (kws : List String) (acc : List Video)
      (tr : List FetchCall),
      (∀ c ∈ tr, c.perPage = min (m - c.collectedBefore) 15 ∧ c.collectedBefore < m) →
      ∀ c ∈ (sentenceLoop nlp fetch m ss idx kws acc tr).2.2.1,
        c.perPage = min (m - c.collectedBefore) 15 ∧ c.collectedBefore < m := by
  intro ss
  induction ss with
  | nil => intro idx kws acc tr htr; simpa [sentenceLoop] using htr
  | cons s ss ih =>
    intro idx kws acc tr htr
    simp only [sentenceLoop]
    split
    case isTrue =>
      exact keywordLoop_trace fetch m (extract_keywords nlp s) idx acc tr htr
    case isFalse =>
      exact ih _ _ _ _ (keywordLoop_trace fetch m (extract_keywords nlp s) idx acc tr htr)

/-- C2: every fetch call the orchestrator issues requests
`min(maxResults - collected, 15)` videos, and no call at all is issued
once `maxResults` videos are collected (every recorded call has
`collectedBefore < maxResults`). -/
theorem fetch_call_page_sizes (cfg : Config) (script sort_by : String)
    (max_results : Nat) :
    ∀ c ∈ (fetch_and_sort_full cfg script sort_by max_results).2,
      c.perPage = min (max_results - c.collectedBefore) 15 ∧
      c.collectedBefore < max_results := by
  intro c hc
  exact sentenceLoop_trace cfg.nlp (selectFetch cfg) max_results
    (cfg.nlp.sent_tokenize script) 0 [] [] [] (by intro c hc; cases hc) c hc

theorem mock_fetch_videos_length (rnd : Nat → Nat) (q : String) (pp pg : Nat) :
    (mock_fetch_videos rnd q pp pg).length = pp := by
  simp [mock_fetch_videos]

theorem mock_fetch_videos_id_lt (rnd : Nat → Nat) (q : String) (pp pg : Nat) :
    ∀ v ∈ mock_fetch_videos rnd q pp pg, v.id < pp := by
  intro v hv
  rw [mock_fetch_videos, List.mem_map] at hv
  obtain ⟨i, hi, rfl⟩ := hv
  exact List.mem_range.mp hi

theorem fetchLoopFuel_fill (fetch : FetchFun) (m : Nat) (k : String)
    (hf : ∀ i q pp pg, (fetch i q pp pg).length = pp) :
    ∀ fuel idx page acc tr, acc.length ≤ m → m - acc.length ≤ fuel →
      ((fetchLoopFuel fetch m k fuel idx page acc tr).1).length = m := by
  intro fuel
  induction fuel with
  | zero =>
    intro idx page acc tr hle hfuel
    simp only [fetchLoopFuel]
    omega
  | succ fuel ih =>
    intro idx page acc tr hle hfuel
    simp only [fetchLoopFuel]
    split
    case isTrue hlt =>
      have hlen := hf idx k (min (m - acc.length) 15) page
      split
      case isTrue hemp =>
        rw [hemp] at hlen
        simp only [List.length_nil] at hlen
        omega
      case isFalse hemp =>
        apply ih
        · simp only [List.length_append, hlen]
          omega
        · simp only [List.length_append, hlen]
          omega
    case isFalse hlt =>
      dsimp only
      omega

theorem fetchLoop_fill (fetch : FetchFun) (m : Nat) (k : String)
    (hf : ∀ i q pp pg, (fetch i q pp pg).length = pp)
    (idx page : Nat) (acc : List Video) (tr : List FetchCall)
    (hle : acc.length ≤ m) :
    ((fetchLoop fetch m k idx page acc tr).1).length = m :=
  fetchLoopFuel_fill fetch m k hf _ idx page acc tr hle (Nat.le_refl _)

theorem keywordLoop_fill (fetch : FetchFun) (m : Nat)
    (hf : ∀ i q pp pg, (fetch i q pp pg).length = pp) :
    ∀ (ks : List String) (idx : Nat) (acc : List Video) (tr : List FetchCall),
      ks ≠ [] → acc.length ≤ m →
      ((keywordLoop fetch m ks idx acc tr).1).length = m := by
  intro ks idx acc tr hne hle
  cases ks with
  | nil => exact absurd rfl hne
  | cons k ks =>
    have hr : ((fetchLoop fetch m k idx 1 acc tr).1).length = m :=
      fetchLoop_fill fetch m k hf idx 1 acc tr hle
    simp only [keywordLoop]
    split
    case isTrue => exact hr
    case isFalse h => omega

theorem sentenceLoop_fill (nlp : NLP) (fetch : FetchFun) (m : Nat)
    (hf : ∀ i q pp pg, (fetch i q pp pg).length = pp) :
    ∀ (ss : List String) (idx : Nat) (kws : List String) (acc : List Video)
      (tr : List FetchCall),
      acc.length ≤ m → (∃ s ∈ ss, extract_keywords nlp s ≠ []) →
      ((sentenceLoop nlp fetch m ss idx kws acc tr).2.1).length = m := by
  intro ss
  induction ss with
  | nil =>
    intro idx kws acc tr _ hex
    obtain ⟨s, hs, _⟩ := hex
    cases hs
  | cons s ss ih =>
    intro idx kws acc tr hle hex
    simp only [sentenceLoop]
    by_cases hk : extract_keywords nlp s = []
    · rw [hk]
      have hkl : keywordLoop fetch m [] idx acc tr = (acc, tr, idx) := rfl
      rw [hkl]
      split
      next h =>
        dsimp only at h ⊢
        omega
      next h =>
        apply ih _ _ _ _ hle
        obtain ⟨s0, hs0, hne0⟩ := hex
        rcases List.mem_cons.mp hs0 with rfl | hs0'
        · exact absurd hk hne0
        · exact ⟨s0, hs0', hne0⟩
    · have hr : ((keywordLoop fetch m (extract_keywords nlp s) idx acc tr).1).length = m :=
        keywordLoop_fill fetch m hf _ idx acc tr hk hle
      split
      next h => exact hr
      next h => omega

theorem fetchLoopFuel_ids (fetch : FetchFun) (m : Nat) (k : String)
    (hid : ∀ i q pp pg, pp ≤ 15 → ∀ v ∈ fetch i q pp pg, v.id < 15) :
    ∀ fuel idx page acc tr, (∀ v ∈ acc, v.id < 15) →
      ∀ v ∈ (fetchLoopFuel fetch m k fuel idx page acc tr).1, v.id < 15 := by
  intro fuel
  induction fuel with
  | zero => intro idx page acc tr hacc; simpa [fetchLoopFuel] using hacc
  | succ fuel ih =>
    intro idx page acc tr hacc
    simp only [fetchLoopFuel]
    split
    case isTrue hlt =>
      split
      case isTrue hemp => exact hacc
      case isFalse hemp =>
        apply ih
        intro v hv
        rcases List.mem_append.mp hv with h | h
        · exact hacc v h
        · exact hid idx k (min (m - acc.length) 15) page (Nat.min_le_right _ _) v h
    case isFalse hlt => exact hacc

theorem keywordLoop_ids (fetch : FetchFun) (m : Nat)
    (hid : ∀ i q pp pg, pp ≤ 15 → ∀ v ∈ fetch i q pp pg, v.id < 15) :
    ∀ (ks : List String) (idx : Nat) (acc : List Video) (tr : List FetchCall),
      (∀ v ∈ acc, v.id < 15) →
      ∀ v ∈ (keywordLoop fetch m ks idx acc tr).1, v.id < 15 := by
  intro ks
  induction ks with
  | nil => intro idx acc tr hacc; simpa [keywordLoop] using hacc
  | cons k ks ih =>
    intro idx acc tr hacc
    simp only [keywordLoop]
    split
    case isTrue => exact fetchLoopFuel_ids fetch m k hid _ idx 1 acc tr hacc
    case isFalse => exact ih _ _ _ (fetchLoopFuel_ids fetch m k hid _ idx 1 acc tr hacc)

theorem sentenceLoop_ids (nlp : NLP) (fetch : FetchFun) (m : Nat)
    (hid : ∀ i q pp pg, pp ≤ 15 → ∀ v ∈ fetch i q pp pg, v.id < 15) :
    ∀ (ss : List String) (idx : Nat) (kws : List String) (acc : List Video)
      (tr : List FetchCall),
      (∀ v ∈ acc, v.id < 15) →
      ∀ v ∈ (sentenceLoop nlp fetch m ss idx kws acc tr).2.1, v.id < 15 := by
  intro ss
  induction ss with
  | nil => intro idx kws acc tr hacc; simpa [sentenceLoop] using hacc
  | cons s ss ih =>
    intro idx kws acc tr hacc
    simp only [sentenceLoop]
    split
    case isTrue => exact keywordLoop_ids fetch m hid _ idx acc tr hacc
    case isFalse => exact ih _ _ _ _ (keywordLoop_ids fetch m hid _ idx acc tr hacc)

/-- Permutation property of `sort_videos` (helper shared by several
results). -/
theorem sortPerm (vs : List Video) (s q : String) :
    List.Perm (sort_videos vs s q) vs := by
  unfold sort_videos
  split_ifs <;> exact List.mergeSort_perm vs _

/-- In mock mode the collection loop gathers exactly `max_results`
videos, all with `id < 15` (helper shared by the mock-mode results). -/
theorem mock_collected (cfg : Config) (script : String) (max_results : Nat)
    (hmock : use_mock cfg.api_key = true)
    (hkw : ∃ s ∈ cfg.nlp.sent_tokenize script, extract_keywords cfg.nlp s ≠ []) :
    ((sentenceLoop cfg.nlp (selectFetch cfg) max_results
        (cfg.nlp.sent_tokenize script) 0 [] [] []).2.1).length = max_results ∧
    ∀ v ∈ (sentenceLoop cfg.nlp (selectFetch cfg) max_results
        (cfg.nlp.sent_tokenize script) 0 [] [] []).2.1, v.id < 15 := by
  have hsel : selectFetch cfg = fun i q pp pg => mock_fetch_videos (cfg.rnd i) q pp pg := by
    simp [selectFetch, hmock]
  have hf : ∀ i q pp pg, ((selectFetch cfg) i q pp pg).length = pp := by
    rw [hsel]
    intro i q pp pg
    exact mock_fetch_videos_length (cfg.rnd i) q pp pg
  have hid : ∀ i q pp pg, pp ≤ 15 → ∀ v ∈ (selectFetch cfg) i q pp pg, v.id < 15 := by
    rw [hsel]
    intro i q pp pg hpp v hv
    exact Nat.lt_of_lt_of_le (mock_fetch_videos_id_lt (cfg.rnd i) q pp pg v hv) hpp
  constructor
  · exact sentenceLoop_fill cfg.nlp (selectFetch cfg) max_results hf
      (cfg.nlp.sent_tokenize script) 0 [] [] [] (by simp) hkw
  · exact sentenceLoop_ids cfg.nlp (selectFetch cfg) max_results hid
      (cfg.nlp.sent_tokenize script) 0 [] [] [] (by intro v hv; cases hv)

/-- C8: in mock mode, once the script yields at least one keyword and
`maxResults ≥ 1`, the orchestrator returns exactly `maxResults` records,
sorted by the comparison belonging to the requested sort key. -/
theorem mock_mode_fills (cfg : Config) (script sort_by : String) (max_results : Nat)
    (hmock : use_mock cfg.api_key = true) (hmax : 1 ≤ max_results)
    (hkw : ∃ s ∈ cfg.nlp.sent_tokenize script, extract_keywords cfg.nlp s ≠ []) :
    (fetch_and_sort_videos cfg script sort_by max_results).length = max_results ∧
    ∃ q : String, (fetch_and_sort_videos cfg script sort_by max_results).Pairwise
      (fun a b => sortRel sort_by q a b = true) := by
  obtain ⟨hlen, -⟩ := mock_collected cfg script max_results hmock hkw
  constructor
  · rw [fetch_and_sort_videos, fetch_and_sort_full]
    rw [(sortPerm _ _ _).length_eq]
    exact hlen
  · exact ⟨_, sort_videos_pairwise _ sort_by _⟩

/-- C9: the ids of a mock page are `0, …, per_page - 1` whatever the
requested page is; consequently, in mock mode with `maxResults > 15` the
orchestrator's output contains duplicate ids. -/
theorem mock_id_duplication (cfg : Config) (script sort_by : String)
    (max_results : Nat) (hmock : use_mock cfg.api_key = true)
    (hmax : 15 < max_results)
    (hkw : ∃ s ∈ cfg.nlp.sent_tokenize script, extract_keywords cfg.nlp s ≠ []) :
    (∀ (rnd : Nat → Nat) (q : String) (pp pg : Nat),
      (mock_fetch_videos rnd q pp pg).map (fun v => v.id) = List.range pp) ∧
    ¬ ((fetch_and_sort_videos cfg script sort_by max_results).map
        (fun v => v.id)).Nodup := by
  constructor
  · intro rnd q pp pg
    rw [mock_fetch_videos, List.map_map]
    show List.map (fun i => i) (List.range pp) = List.range pp
    simp
  · intro hnd
    obtain ⟨hlen, hids⟩ := mock_collected cfg script max_results hmock hkw
    have hperm : List.Perm
        ((fetch_and_sort_videos cfg script sort_by max_results).map (fun v => v.id))
        (((sentenceLoop cfg.nlp (selectFetch cfg) max_results
          (cfg.nlp.sent_tokenize script) 0 [] [] []).2.1).map (fun v => v.id)) := by
      rw [fetch_and_sort_videos, fetch_and_sort_full]
      exact (sortPerm _ _ _).map _
    have hnd' := hperm.nodup_iff.mp hnd
    have hsub : ((sentenceLoop cfg.nlp (selectFetch cfg) max_results
        (cfg.nlp.sent_tokenize script) 0 [] [] []).2.1).map (fun v => v.id) ⊆
        List.range 15 := by
      intro x hx
      rw [List.mem_map] at hx
      obtain ⟨v, hv, rfl⟩ := hx
      exact List.mem_range.mpr (hids v hv)
    have hle := (hnd'.subperm hsub).length_le
    rw [List.length_map, hlen, List.length_range] at hle
    omega

theorem isPrefixOf_append_self : ∀ (l t : List Char), l.isPrefixOf (l ++ t) = true
  | [], t => by cases t <;> rfl
  | c :: l, t => by
    simp only [List.cons_append, List.isPrefixOf, beq_self_eq_true, Bool.true_and]
    exact isPrefixOf_append_self l t

theorem substrL_sandwich (mid : List Char) :
    ∀ pre post : List Char, substrL mid (pre ++ (mid ++ post)) = true := by
  intro pre
  induction pre with
  | nil =>
    intro post
    simp only [List.nil_append]
    cases hmp : mid ++ post with
    | nil =>
      obtain ⟨rfl, rfl⟩ := List.append_eq_nil.mp hmp
      rfl
    | cons c cs =>
      simp only [substrL]
      rw [← hmp, isPrefixOf_append_self, Bool.true_or]
  | cons c pre ih =>
    intro post
    simp only [List.cons_append, substrL, List.append_eq]
    rw [ih post, Bool.or_true]

/-- Random stream exhibiting the C5 counterexample: the single generated
record draws width index 0 (1280) and height index 2 (2160). -/
def cexRnd : Nat → Nat := fun n => if n = 2 then 2 else 0

/-- C5 counterexample: the mock generator chooses width and height
independently (`random.choice([1280, 1920, 3840])` and
`random.choice([720, 1080, 2160])` are separate draws), so it can emit a
1280×2160 record — a resolution outside the claimed pair set
{1280×720, 1920×1080, 3840×2160}. -/
theorem mock_resolution_counterexample :
    ∃ v ∈ mock_fetch_videos cexRnd "cats" 1 1,
      (v.width, v.height) ∉
        ([(1280, 720), (1920, 1080), (3840, 2160)] : List (Nat × Nat)) := by
  decide

/-- C5 as amended: the mock fetch returns exactly `pageSize` records,
each with duration in [5, 60], width drawn from {1280, 1920, 3840} and
height drawn independently from {720, 1080, 2160} (not necessarily a
matching pair), and title and description containing the query term. -/
theorem mock_fetch_videos_amended (rnd : Nat → Nat) (q : String) (pp pg : Nat) :
    (mock_fetch_videos rnd q pp pg).length = pp ∧
    ∀ v ∈ mock_fetch_videos rnd q pp pg,
      5 ≤ v.duration ∧ v.duration ≤ 60 ∧
      v.width ∈ ([1280, 1920, 3840] : List Nat) ∧
      v.height ∈ ([720, 1080, 2160] : List Nat) ∧
      substrB q v.title = true ∧ substrB q v.description = true := by
  refine ⟨by simp [mock_fetch_videos], ?_⟩
  intro v hv
  rw [mock_fetch_videos, List.mem_map] at hv
  obtain ⟨i, _, rfl⟩ := hv
  dsimp only
  refine ⟨Nat.le_add_right 5 _, ?_, ?_, ?_, ?_, ?_⟩
  · have : rnd (3 * i) % 56 < 56 := Nat.mod_lt _ (by norm_num)
    omega
  · have h3 : rnd (3 * i + 1) % 3 < 3 := Nat.mod_lt _ (by norm_num)
    rw [List.getD_eq_getElem _ _ (by simpa using h3)]
    exact List.getElem_mem _
  · have h3 : rnd (3 * i + 2) % 3 < 3 := Nat.mod_lt _ (by norm_num)
    rw [List.getD_eq_getElem _ _ (by simpa using h3)]
    exact List.getElem_mem _
  · show substrB q ("Mock Video " ++ toString i ++ " about " ++ q) = true
    rw [substrB]
    have h := substrL_sandwich q.toList
      (("Mock Video " ++ toString i ++ " about ").toList) []
    simpa [String.toList, String.data_append, List.append_assoc] using h
  · show substrB q ("This is a mock video description for " ++ q ++
      " content. Video number " ++ toString i ++ ".") = true
    rw [substrB]
    have h := substrL_sandwich q.toList
      ("This is a mock video description for ".toList)
      ((" content. Video number " ++ toString i ++ ".").toList)
    simpa [String.toList, String.data_append, List.append_assoc] using h

/-- Witness for the amended C5 at a concrete stream, query, and page
size. -/
theorem mock_fetch_videos_amended_witness :
    5 ≤ (Video.mk 0 5 1280 2160 ("Mock Video 0 about cats")
        ("This is a mock video description for cats content. Video number 0.")).duration ∧
    (Video.mk 0 5 1280 2160 ("Mock Video 0 about cats")
        ("This is a mock video description for cats content. Video number 0.")).duration ≤ 60 ∧
    (Video.mk 0 5 1280 2160 ("Mock Video 0 about cats")
        ("This is a mock video description for cats content. Video number 0.")).width ∈
      ([1280, 1920, 3840] : List Nat) ∧
    (Video.mk 0 5 1280 2160 ("Mock Video 0 about cats")
        ("This is a mock video description for cats content. Video number 0.")).height ∈
      ([720, 1080, 2160] : List Nat) ∧
    substrB "cats" (Video.mk 0 5 1280 2160 ("Mock Video 0 about cats")
        ("This is a mock video description for cats content. Video number 0.")).title = true ∧
    substrB "cats" (Video.mk 0 5 1280 2160 ("Mock Video 0 about cats")
        ("This is a mock video description for cats content. Video number 0.")).description = true :=
  (mock_fetch_videos_amended cexRnd "cats" 1 1).2
    (Video.mk 0 5 1280 2160 ("Mock Video 0 about cats")
      ("This is a mock video description for cats content. Video number 0."))
    (by decide)

/-- C6: the adapter converts a transport failure to `{"videos": []}` as
claimed; but a response whose "videos" element is not a dict — which is
"an element missing id, duration, width, height" — makes
`all(key in video ...)` raise an uncaught `TypeError` that propagates to
the caller instead of yielding `{"videos": []}`. -/
theorem fetch_videos_fail_soft_violation :
    fetch_videos .transportError = .ok emptyVideos ∧
    fetch_videos (.ok (JVal.jobj [("videos", JVal.jarr [JVal.jnum 5])])) =
      .error PyErr.typeError :=
  ⟨rfl, rfl⟩

theorem mem_filteredTokens_pred (nlp : NLP) (s : String) (w : String)
    (hw : w ∈ filteredTokens nlp s) :
    py_isalnum w = true ∧ nlp.stop_words.contains w = false := by
  rw [filteredTokens, List.mem_filter] at hw
  have h := hw.2
  rw [Bool.and_eq_true, Bool.not_eq_true'] at h
  exact h

/-- C3: every keyword `extract_keywords` returns is purely alphanumeric,
is not a stopword, arose at a token position whose part-of-speech tag
begins with "NN" or "VB", and the returned collection has no
duplicates. -/
theorem extract_keywords_props (nlp : NLP) (text : String) :
    (∀ k ∈ extract_keywords nlp text,
      py_isalnum k = true ∧ k ∉ nlp.stop_words ∧
      ∃ s ∈ nlp.sent_tokenize text, ∃ i : Nat,
        ∃ h : i < (filteredTokens nlp s).length,
          (filteredTokens nlp s).get ⟨i, h⟩ = k ∧
          (py_startswith (nlp.tagAt (filteredTokens nlp s) i) "NN" = true ∨
           py_startswith (nlp.tagAt (filteredTokens nlp s) i) "VB" = true)) ∧
    (extract_keywords nlp text).Nodup := by
  constructor
  · intro k hk
    rw [extract_keywords, List.mem_dedup, List.mem_flatMap] at hk
    obtain ⟨s, hs, hks⟩ := hk
    rw [sentence_keywords, List.mem_map] at hks
    obtain ⟨p, hpmem, hpk⟩ := hks
    rw [List.mem_filter] at hpmem
    obtain ⟨hpin, hptag⟩ := hpmem
    rw [posTag, List.mem_map] at hpin
    obtain ⟨i, hir, hpi⟩ := hpin
    rw [List.mem_range] at hir
    subst hpi
    dsimp only at hptag hpk
    subst hpk
    have hget : (filteredTokens nlp s).getD i "" =
        (filteredTokens nlp s).get ⟨i, hir⟩ := by
      rw [List.getD_eq_getElem _ _ hir]
      rfl
    have hmem : (filteredTokens nlp s).getD i "" ∈ filteredTokens nlp s := by
      rw [hget]
      exact List.get_mem _ _ _
    have hpred := mem_filteredTokens_pred nlp s _ hmem
    refine ⟨hpred.1, ?_, s, hs, i, hir, hget.symm, ?_⟩
    · intro hmem'
      have : (nlp.stop_words.contains ((filteredTokens nlp s).getD i "")) = true :=
        List.elem_eq_true_of_mem hmem'
      rw [hpred.2] at this
      cases this
    · exact Bool.or_eq_true _ _ |>.mp hptag
  · exact List.nodup_dedup _

/-- Concrete NLTK instantiation used by the orchestrator witnesses: each
input is a single sentence, words are whitespace-separated, "the" is a
stopword, and every token is tagged "NN". -/
def wNlp : NLP :=
  { sent_tokenize := fun s => [s]
    word_tokenize := fun s => py_split s
    stop_words := ["the"]
    tagAt := fun _ _ => "NN" }

/-- Concrete mock-mode configuration used by the orchestrator
witnesses. -/
def wCfg : Config :=
  { api_key := none
    nlp := wNlp
    fetchReal := fun _ _ _ _ => []
    rnd := fun _ _ => 0 }

/-- Witness for C3 at a concrete tokenizer and text, keyword "dogs". -/
theorem extract_keywords_props_witness :
    py_isalnum "dogs" = true ∧ "dogs" ∉ wNlp.stop_words ∧
    ∃ s ∈ wNlp.sent_tokenize "dogs run", ∃ i : Nat,
      ∃ h : i < (filteredTokens wNlp s).length,
        (filteredTokens wNlp s).get ⟨i, h⟩ = "dogs" ∧
        (py_startswith (wNlp.tagAt (filteredTokens wNlp s) i) "NN" = true ∨
         py_startswith (wNlp.tagAt (filteredTokens wNlp s) i) "VB" = true) :=
  (extract_keywords_props wNlp "dogs run").1 "dogs" (by decide)

/-- Witness for C2: with the mock configuration, script "dogs run" and
`maxResults = 2`, the only fetch call requested
`min(2 - 0, 15) = 2` videos before anything was collected. -/
theorem fetch_call_page_sizes_witness :
    (FetchCall.mk 0 "dogs" 2 1).perPage =
        min (2 - (FetchCall.mk 0 "dogs" 2 1).collectedBefore) 15 ∧
    (FetchCall.mk 0 "dogs" 2 1).collectedBefore < 2 :=
  fetch_call_page_sizes wCfg "dogs run" "duration" 2 (FetchCall.mk 0 "dogs" 2 1)
    (by decide)

/-- Witness for C8: mock mode, script "dogs run", `maxResults = 2`. -/
theorem mock_mode_fills_witness :
    (fetch_and_sort_videos wCfg "dogs run" "duration" 2).length = 2 ∧
    ∃ q : String, (fetch_and_sort_videos wCfg "dogs run" "duration" 2).Pairwise
      (fun a b => sortRel "duration" q a b = true) :=
  mock_mode_fills wCfg "dogs run" "duration" 2 (by decide) (by decide)
    ⟨"dogs run", by decide, by decide⟩

/-- Witness for C9: mock mode, script "dogs run", `maxResults = 16`. -/
theorem mock_id_duplication_witness :
    (∀ (rnd : Nat → Nat) (q : String) (pp pg : Nat),
      (mock_fetch_videos rnd q pp pg).map (fun v => v.id) = List.range pp) ∧
    ¬ ((fetch_and_sort_videos wCfg "dogs run" "duration" 16).map
        (fun v => v.id)).Nodup :=
  mock_id_duplication wCfg "dogs run" "duration" 16 (by decide) (by decide)
    ⟨"dogs run", by decide, by decide⟩

end StockVideo
